import Mathlib

/-!
Verification of the query-processing pipeline of a multilingual agentic RAG
backend. Each definition is a shallow embedding of one Python function of
`backend/app`: relevance scores (Python floats manipulated only by `+`, `*`,
`min`, `max` and comparisons) are modelled as rationals, Python's
insertion-ordered `dict` as an association list that appends to the first
matching key, the stable `sorted` as a stable insertion sort, external
LLM / langdetect calls as explicit oracle arguments, and `try/except` as
`Except`.
-/

namespace RAG

/-! ## Generic helpers shared by several agents -/

/-- Python's `max(xs, key=key)` on the non-empty list `x :: xs`: scan left to
right, replace the current best only on a strictly larger key, so the first
maximal element wins. -/
def pyMaxBy {α β : Type} [LinearOrder β] (key : α → β) (x : α) (xs : List α) : α :=
  xs.foldl (fun best y => if key best < key y then y else best) x

/-- Character-by-character match of `needle` against the start of `hay`. -/
def matchesAt : List Char → List Char → Bool
  | [], _ => true
  | _ :: _, [] => false
  | a :: as, b :: bs => a == b && matchesAt as bs

/-- Python's substring test `needle in hay`. -/
def hasSub (needle hay : List Char) : Bool :=
  (List.range (hay.length + 1)).any fun i => matchesAt needle (hay.drop i)

/-- Python's `needle in hay` on strings. -/
def pyContains (needle hay : String) : Bool :=
  hasSub needle.toList hay.toList

/-- Python's `text.split()`: split on whitespace, dropping empty pieces. -/
def pySplitWS (s : String) : List String :=
  (s.split fun c => c.isWhitespace).filter fun w => w != ""

/-! ## Retriever (`app/agents/retriever.py`)

A retrieved document record.  `score` is the vector-store relevance score;
`sourceQuery` / `queryIndex` model the `source_query` / `query_index`
metadata entries `RetrieverAgent.execute` attaches; `rerankScore` models the
`rerank_score` key `_rerank` may add (absent = `none`). -/
structure DocumentRecord where
  id : String
  text : String
  score : ℚ
  sourceQuery : String := ""
  queryIndex : Nat := 0
  rerankScore : Option ℚ := none
deriving Repr, DecidableEq

/-- The groups `_deduplicate` builds: a Python `dict` from document id to the
list of records with that id, in key-insertion order. -/
abbrev DocGroups := List (String × List DocumentRecord)

/-- One step of `doc_groups[doc_id].append(doc)` (creating the key at the end
when absent), exactly the observable behaviour of an insertion-ordered dict. -/
def addToGroups : DocGroups → DocumentRecord → DocGroups
  | [], doc => [(doc.id, [doc])]
  | g :: gs, doc =>
    if g.1 = doc.id then (g.1, g.2 ++ [doc]) :: gs else g :: addToGroups gs doc

/-- The grouping loop of `RetrieverAgent._deduplicate` (lines 166-171). -/
def groupById (documents : List DocumentRecord) : DocGroups :=
  documents.foldl addToGroups []

/-- `max(group, key=lambda x: x.score)` on a possibly-empty group. -/
def bestOf : List DocumentRecord → Option DocumentRecord
  | [] => none
  | d :: ds => some (pyMaxBy (fun x => x.score) d ds)

/-- `RetrieverAgent._deduplicate`: group by id, keep the highest-scoring
record of each group, in key-insertion order. -/
def deduplicate (documents : List DocumentRecord) : List DocumentRecord :=
  (groupById documents).filterMap fun g => bestOf g.2

/-- Everything `_deduplicate`'s grouping loop guarantees about the dict built
from `docs`: distinct keys, non-empty groups keyed by their members' ids, all
members drawn from `docs`, and every element of `docs` filed under its id. -/
def GroupsWF (docs : List DocumentRecord) (gs : DocGroups) : Prop :=
  (gs.map Prod.fst).Nodup ∧
  (∀ g ∈ gs, g.2 ≠ []) ∧
  (∀ g ∈ gs, ∀ d ∈ g.2, d.id = g.1 ∧ d ∈ docs) ∧
  (∀ d ∈ docs, ∃ g ∈ gs, g.1 = d.id ∧ d ∈ g.2)

/-- Python's stable `sorted(l, key=key, reverse=True)`.  A stable sort is
uniquely determined by being sorted and keeping equal keys in input order, so
the stable insertion sort below is extensionally Python's Timsort. -/
def pySortDescBy {α : Type} (key : α → ℚ) (l : List α) : List α :=
  List.insertionSort (fun a b => key b ≤ key a) l

/-- The lookup `doc_query_counts[doc['id']]` of `RetrieverAgent._rerank`:
how often an id occurs in the list the counting loop ran over. -/
def countId (documents : List DocumentRecord) (i : String) : Nat :=
  documents.countP fun d => d.id == i

/-- The sort key `x.get('rerank_score', x['score'])` of `_rerank`. -/
def rerankKey (d : DocumentRecord) : ℚ :=
  d.rerankScore.getD d.score

/-- `RetrieverAgent._rerank` (lines 203-224): count occurrences of each id in
its input, set `rerank_score = min(1.0, score + (count - 1) * 0.05)`, sort
descending by it, take the first `topK`. -/
def rerank (documents : List DocumentRecord) (topK : Nat) : List DocumentRecord :=
  let scored := documents.map fun doc =>
    { doc with
        rerankScore :=
          some (min 1 (doc.score + ((countId documents doc.id : ℚ) - 1) * (5 / 100))) }
  (pySortDescBy rerankKey scored).take topK

/-- The per-query tagging loop of `RetrieverAgent.execute` (lines 88-104):
stamp each record of query `i` (1-based) with `source_query` and
`query_index`, then concatenate.  `perQuery` pairs each search query with the
records the vector store returned for it. -/
def tagAll (perQuery : List (String × List DocumentRecord)) : List DocumentRecord :=
  (((List.range perQuery.length).zip perQuery).map fun p =>
    p.2.2.map fun d => { d with sourceQuery := p.2.1, queryIndex := p.1 + 1 }).flatten

/-- The document pipeline of `RetrieverAgent.execute` (lines 85-130):
concatenate tagged per-query results, deduplicate, then either rerank (when
requested and the unique count exceeds `topK`) or sort by original score
descending, and truncate to `topK`. -/
def retrieverFinal (perQuery : List (String × List DocumentRecord)) (topK : Nat)
    (rerankFlag : Bool) : List DocumentRecord :=
  let allDocuments := tagAll perQuery
  let uniqueDocuments := deduplicate allDocuments
  if rerankFlag = true ∧ topK < uniqueDocuments.length then
    rerank uniqueDocuments topK
  else
    (pySortDescBy (fun d => d.score) uniqueDocuments).take topK

/-! ## Citation extraction

`ValidatorAgent._run_automated_checks` uses
`re.findall(r'\[Doc ID:\s*([^\]]+)\]', answer)`; the helpers module's
`extract_citations` (used by Analyzer and Synthesizer, source not in the
repository snapshot) is, per the spec's citation marker grammar, the same
pattern.  The scanner below matches the literal `[Doc ID:`, skips
whitespace, captures a non-empty run of non-`]` characters, and requires a
closing `]`; failed positions advance by one character and matches are
non-overlapping, as in `re.findall`. -/

/-- Strip an expected literal off the front of `s`. -/
def dropLit : List Char → List Char → Option (List Char)
  | [], s => some s
  | _ :: _, [] => none
  | p :: ps, c :: cs => if p = c then dropLit ps cs else none

/-- One attempted match of `\[Doc ID:\s*([^\]]+)\]` at the head of `s`:
the captured id token and the remainder after the match. -/
def tryCitation (s : List Char) : Option (String × List Char) :=
  match dropLit ("[Doc ID:".toList) s with
  | none => none
  | some rest =>
    let afterWs := rest.dropWhile fun c => c.isWhitespace
    let tok := afterWs.takeWhile fun c => c != ']'
    match afterWs.drop tok.length with
    | ']' :: after => if tok = [] then none else some (String.mk tok, after)
    | _ => none

/-- Left-to-right non-overlapping scan; the fuel (initialized to the string
length, which bounds the number of scanning steps) makes the recursion
structural. -/
def scanCitationsAux : Nat → List Char → List String
  | 0, _ => []
  | _ + 1, [] => []
  | fuel + 1, c :: rest =>
    match tryCitation (c :: rest) with
    | some (tok, after) => tok :: scanCitationsAux fuel after
    | none => scanCitationsAux fuel rest

/-- `re.findall(r'\[Doc ID:\s*([^\]]+)\]', s)`. -/
def extractCitationIds (s : String) : List String :=
  scanCitationsAux s.length s.toList

/-! ## Validator (`app/agents/validator.py`) -/

/-- The validation verdict: the `valid` / `confidence` / `issues` fields of
the dictionaries `ValidatorAgent` passes around (the debug-only `details`
entry is not modelled). -/
structure ValidationResult where
  valid : Bool
  confidence : ℚ
  issues : List String
deriving Repr, DecidableEq

/-- What `_run_automated_checks` returns. -/
structure AutoChecks where
  citationsFound : Nat
  validCitations : Nat
  automatedIssues : List String
deriving Repr, DecidableEq

/-- The uncertainty-phrase list of `_run_automated_checks` (lines 241-246). -/
def uncertaintyPhrasesValidator : List String :=
  ["not sure", "don\x27t know", "cannot determine", "unclear"]

def docIdsOf (documents : List DocumentRecord) : List String :=
  documents.map fun d => d.id

/-- `f"Invalid citation: Doc ID '{citation}' not in sources"`. -/
def mkInvalidCitationIssue (c : String) : String :=
  "Invalid citation: Doc ID \x27" ++ c ++ "\x27 not in sources"

/-- `ValidatorAgent._run_automated_checks` (lines 208-255). -/
def runAutomatedChecks (answer : String) (documents : List DocumentRecord) : AutoChecks :=
  let citations := extractCitationIds answer
  let docIds := docIdsOf documents
  let noCitationIssues := if citations = [] then ["No citations found in answer"] else []
  let invalidIssues :=
    (citations.filter fun c => !(docIds.contains c)).map mkInvalidCitationIssue
  let shortIssues :=
    if (pySplitWS answer).length < 5 then ["Answer is very short (< 5 words)"] else []
  let uncertaintyIssues := uncertaintyPhrasesValidator.filterMap fun phrase =>
    if pyContains phrase answer.toLower = true ∧ (pySplitWS answer).length < 20 then
      some ("Contains uncertainty phrase without explanation: \x27" ++ phrase ++ "\x27")
    else none
  { citationsFound := citations.length
    validCitations := (citations.filter fun c => docIds.contains c).length
    automatedIssues := noCitationIssues ++ invalidIssues ++ shortIssues ++ uncertaintyIssues }

/-- The criticality test of `_combine_results` (lines 287-290):
`"Invalid citation" in issue or "No citations" in issue`. -/
def isCriticalIssue (issue : String) : Bool :=
  pyContains "Invalid citation" issue || pyContains "No citations" issue

/-- `ValidatorAgent._combine_results` (lines 257-296): start from the model
verdict, append the automated issues, and only when a critical automated
issue was found *and* the model verdict was `valid` force `valid=False` and
clamp confidence to at most `0.6`. -/
def combineResults (llmResult : ValidationResult) (autoChecks : AutoChecks) :
    ValidationResult :=
  let issues := llmResult.issues ++ autoChecks.automatedIssues
  let critical := autoChecks.automatedIssues.filter isCriticalIssue
  if critical ≠ [] ∧ llmResult.valid = true then
    { valid := false, confidence := min llmResult.confidence (3 / 5), issues := issues }
  else
    { valid := llmResult.valid, confidence := llmResult.confidence, issues := issues }

/-- `ValidatorAgent.execute` (lines 46-133).  `llmOutcome` is the outcome of
the model call plus `_parse_validation`: a parsed verdict, or the message of
whatever exception escaped; the `except` branch (lines 125-133) returns the
fail-open verdict unchanged. -/
def validatorExecute (llmOutcome : Except String ValidationResult) (answer : String)
    (documents : List DocumentRecord) : ValidationResult :=
  match llmOutcome with
  | .ok llmResult => combineResults llmResult (runAutomatedChecks answer documents)
  | .error msg =>
    { valid := true, confidence := 1 / 2, issues := ["Validation error: " ++ msg] }

/-! ## Analyzer (`app/agents/analyzer.py`) -/

/-- The uncertainty-phrase list of `AnalyzerAgent._estimate_confidence`
(lines 183-190). -/
def uncertaintyPhrasesAnalyzer : List String :=
  ["not found in provided documents", "information not available", "unclear",
    "uncertain", "may be", "possibly"]

/-- `AnalyzerAgent._estimate_confidence` (lines 148-199): start at `0.5`, add
`min(0.3, len(citations) * 0.1)` when there are citations, add the mean
document score times `0.2` when there are documents, subtract `0.1` per
hedging phrase found (case-insensitive substring), clamp to `[0, 1]`.
`citations` are the extracted citation id tokens (only their number is
used). -/
def estimateConfidence (analysis : String) (citations : List String)
    (documents : List DocumentRecord) : ℚ :=
  let base : ℚ := 1 / 2
  let withCitations :=
    if 0 < citations.length then
      base + min (3 / 10) ((citations.length : ℚ) * (1 / 10))
    else base
  let withDocs :=
    if documents ≠ [] then
      withCitations +
        ((documents.map fun d => d.score).sum / (documents.length : ℚ)) * (1 / 5)
    else withCitations
  let found :=
    uncertaintyPhrasesAnalyzer.filter fun p => pyContains p.toLower analysis.toLower
  max 0 (min 1 (withDocs - (found.length : ℚ) * (1 / 10)))

/-- Modelled from the spec: the claimed closed formula for the analyzer's
confidence — clamp to `[0,1]` of `0.5 + min(0.3, citationCount×0.1) +
mean(score)×0.2 − 0.1×(number of hedging phrases found, each at most
once)` — to be compared with `estimateConfidence`. -/
def confidenceClaimFormula (analysis : String) (citationCount : Nat)
    (documents : List DocumentRecord) : ℚ :=
  let hedging :=
    (uncertaintyPhrasesAnalyzer.filter fun p => pyContains p.toLower analysis.toLower).length
  max 0 (min 1
    (1 / 2 + min (3 / 10) ((citationCount : ℚ) * (1 / 10)) +
      ((documents.map fun d => d.score).sum / (documents.length : ℚ)) * (1 / 5) -
      (hedging : ℚ) * (1 / 10)))

/-- What `AnalyzerAgent.execute` returns (the fields the pipeline reads). -/
structure AnalyzerResult where
  analysis : String
  sourcesUsed : List String
  confidence : ℚ
  citationsCount : Nat
deriving Repr, DecidableEq

/-- `AnalyzerAgent.execute` (lines 50-146), instrumented with the number of
text-generation calls it makes (second component).  The LLM interaction is
the oracle `llm`, a function of everything the prompt is built from; with no
documents the function short-circuits (lines 81-87) before any call.
`sources_used = list(set(ids))` is modelled as order-preserving
deduplication. -/
def analyzerExecute (llm : String × List DocumentRecord × String × String → String)
    (query : String) (documents : List DocumentRecord) (language : String)
    (queryType : String) : AnalyzerResult × Nat :=
  if documents = [] then
    ({ analysis := "No documents provided for analysis.", sourcesUsed := [],
       confidence := 0, citationsCount := 0 }, 0)
  else
    let analysis := llm (query, documents, language, queryType)
    let citations := extractCitationIds analysis
    ({ analysis := analysis, sourcesUsed := citations.dedup,
       confidence := estimateConfidence analysis citations documents,
       citationsCount := citations.length }, 1)

/-! ## Synthesizer (`app/agents/synthesizer.py`) -/

/-- `SynthesizerAgent._determine_structure` (lines 186-209):
`word_count = len(answer.split())`, then the if/elif chain. -/
def determineStructure (answer : String) (queryType : String) : String :=
  let wordCount := (pySplitWS answer).length
  if wordCount < 30 then "direct"
  else if queryType = "COMPARISON" then "comparison"
  else if queryType = "SUMMARIZATION" then "summary"
  else if 100 < wordCount then "detailed"
  else "standard"

/-- Modelled from the spec: the claimed decision order for the structure tag
as a pure function of word count and category, to be compared with
`determineStructure`. -/
def structureClaimFormula (wordCount : Nat) (category : String) : String :=
  if wordCount < 30 then "direct"
  else if category = "COMPARISON" then "comparison"
  else if category = "SUMMARIZATION" then "summary"
  else if 100 < wordCount then "detailed"
  else "standard"

/-! ## LanguageDetector (`app/core/language_detector.py`) -/

/-- The ten script buckets of `_detect_by_script`, in the insertion order of
its `script_counts` dict (lines 158-169). -/
inductive Script
  | devanagari | bengali | tamil | telugu | gujarati
  | kannada | malayalam | gurmukhi | latin | arabic
deriving Repr, DecidableEq

/-- The character classifier of `_detect_by_script`'s counting loop
(lines 171-212): the same Unicode ranges, tried in the same order. -/
def classifyChar (c : Char) : Option Script :=
  let n := c.toNat
  if 0x0900 ≤ n ∧ n ≤ 0x097F then some .devanagari
  else if 0x0980 ≤ n ∧ n ≤ 0x09FF then some .bengali
  else if 0x0B80 ≤ n ∧ n ≤ 0x0BFF then some .tamil
  else if 0x0C00 ≤ n ∧ n ≤ 0x0C7F then some .telugu
  else if 0x0A80 ≤ n ∧ n ≤ 0x0AFF then some .gujarati
  else if 0x0C80 ≤ n ∧ n ≤ 0x0CFF then some .kannada
  else if 0x0D00 ≤ n ∧ n ≤ 0x0D7F then some .malayalam
  else if 0x0A00 ≤ n ∧ n ≤ 0x0A7F then some .gurmukhi
  else if 0x0600 ≤ n ∧ n ≤ 0x06FF then some .arabic
  else if (0x41 ≤ n ∧ n ≤ 0x5A) ∨ (0x61 ≤ n ∧ n ≤ 0x7A) then some .latin
  else none

/-- `script_counts` keys in dict insertion order. -/
def scriptOrder : List Script :=
  [.devanagari, .bengali, .tamil, .telugu, .gujarati,
   .kannada, .malayalam, .gurmukhi, .latin, .arabic]

/-- The `script_to_lang` mapping (lines 226-237); every script has an entry,
so the `.get(..., fallback)` default is unreachable. -/
def scriptToLang : Script → String
  | .devanagari => "hi"
  | .bengali => "bn"
  | .tamil => "ta"
  | .telugu => "te"
  | .gujarati => "gu"
  | .kannada => "kn"
  | .malayalam => "ml"
  | .gurmukhi => "pa"
  | .arabic => "ur"
  | .latin => "en"

/-- `LanguageDetector._detect_by_script` (lines 140-243): bucket-count the
characters, return `(fallback, 0.0)` when no character was classified,
otherwise map the dominant script (first maximal bucket in dict order, as
Python's `max` ties break) to its language with confidence
`count / total`. -/
def detectByScript (text : String) (fallback : String) : String × ℚ :=
  let classified := text.toList.filterMap classifyChar
  let counts := scriptOrder.map fun s => (s, classified.count s)
  let total : Nat := (counts.map fun p => p.2).sum
  if total = 0 then (fallback, 0)
  else
    match counts with
    | [] => (fallback, 0)
    | p :: ps =>
      let dominant := pyMaxBy (fun q => q.2) p ps
      (scriptToLang dominant.1, (dominant.2 : ℚ) / (total : ℚ))

/-- `LanguageDetector.detect` (lines 44-96).  `langdetectOutcome` is the
statistical classifier's answer on the 1000-character sample: a list of
(language, probability) pairs, or the exception that made `detect` fall back to the script
heuristic.  The guard `not text or not text.strip()` is "every character is
whitespace" (true for the empty string). -/
def detect (langdetectOutcome : Except String (List (String × ℚ))) (text : String)
    (fallback : String) : String × ℚ :=
  if text.toList.all (fun c => c.isWhitespace) then (fallback, 0)
  else if (text.toList.take 1000).all (fun c => c.isWhitespace) then (fallback, 0)
  else
    match langdetectOutcome with
    | .error _ => detectByScript text fallback
    | .ok [] => (fallback, 0)
    | .ok (r :: _) => r

/-! ## Orchestrator (`app/agents/orchestrator.py`) -/

/-- The `RAGState` dict threaded through the LangGraph workflow (the
`agent_stats` entry, unread by any node, is not modelled; citation dicts are
modelled by their id tokens; wall-clock floats by rationals). -/
structure RAGState where
  query : String
  userId : String
  filters : List (String × String)
  language : String
  languageConfidence : ℚ
  queryType : String
  searchQueries : List String
  documents : List DocumentRecord
  totalRetrieved : Nat
  analysis : String
  sourcesUsed : List String
  analysisConfidence : ℚ
  answer : String
  citations : List String
  validationValid : Bool
  validationConfidence : ℚ
  validationIssues : List String
  processingTime : ℚ
  totalCost : ℚ
  errors : List String
deriving Repr, DecidableEq

/-- The `initial_state` literal of `process_query` (lines 313-335).  The
`filters` argument defaults to `None`; `filters or {"user_id": user_id}`
replaces both `None` and the empty mapping (both falsy in Python) by the
user-scoping default and passes any non-empty mapping through unchanged. -/
def initialState (query : String) (userId : String)
    (filters : Option (List (String × String))) : RAGState :=
  { query := query
    userId := userId
    filters :=
      match filters with
      | none => [("user_id", userId)]
      | some f => if f = [] then [("user_id", userId)] else f
    language := "en"
    languageConfidence := 0
    queryType := ""
    searchQueries := []
    documents := []
    totalRetrieved := 0
    analysis := ""
    sourcesUsed := []
    analysisConfidence := 0
    answer := ""
    citations := []
    validationValid := true
    validationConfidence := 0
    validationIssues := []
    processingTime := 0
    totalCost := 0
    errors := [] }

/-- The filters `_retrieve_node` (lines 197-212) passes to
`retriever.execute`: `state.get("filters")`, unchanged. -/
def retrieveNodeFilters (state : RAGState) : List (String × String) :=
  state.filters

/-- `_calculate_overall_confidence` (lines 390-411). -/
def overallConfidence (state : RAGState) : ℚ :=
  (2 / 10) * state.languageConfidence + (4 / 10) * state.analysisConfidence +
    (4 / 10) * state.validationConfidence

/-! ## Concrete inputs used by the claim-level theorems -/

/-- A record retrieved by the first demo query with score `0.5`. -/
def demoDocA : DocumentRecord := ⟨"d1", "New Delhi is the capital of India.", 1 / 2, "", 0, none⟩

/-- A record retrieved by the first demo query with score `0.3`. -/
def demoDocB : DocumentRecord := ⟨"d2", "Mumbai is the largest city.", 3 / 10, "", 0, none⟩

/-- The same document as `demoDocA`, retrieved again by the second demo query
with score `0.4`. -/
def demoDocC : DocumentRecord := ⟨"d1", "New Delhi is the capital of India.", 2 / 5, "", 0, none⟩

/-- Two search queries; both return document `d1`, the first also `d2`. -/
def demoPerQuery : List (String × List DocumentRecord) :=
  [("India capital", [demoDocA, demoDocB]), ("Bharat rajdhani", [demoDocC])]

/-- The model verdict used by the C2 counterexample: the model itself already
says the answer is invalid, with high confidence. -/
def cexLlmInvalid : ValidationResult := { valid := false, confidence := 9 / 10, issues := [] }

/-- A model verdict that (wrongly) accepts the answer. -/
def cexLlmValid : ValidationResult := { valid := true, confidence := 8 / 10, issues := [] }

/-- An answer citing an id that is in no retrieved document. -/
def cexAnswer : String := "The capital is New Delhi [Doc ID: doc999]."

/-- The two demo documents (ids `d1` and `d2`). -/
def cexDocs : List DocumentRecord := [demoDocA, demoDocB]

/-! ## Lemmas -/

theorem pyMaxBy_nil {α β : Type} [LinearOrder β] (key : α → β) (x : α) :
    pyMaxBy key x [] = x := rfl

theorem pyMaxBy_cons {α β : Type} [LinearOrder β] (key : α → β) (x a : α) (as : List α) :
    pyMaxBy key x (a :: as) = pyMaxBy key (if key x < key a then a else x) as := rfl

theorem pyMaxBy_mem {α β : Type} [LinearOrder β] (key : α → β) (x : α) (xs : List α) :
    pyMaxBy key x xs ∈ x :: xs := by
  induction xs generalizing x with
  | nil => simp [pyMaxBy_nil]
  | cons a as ih =>
    rw [pyMaxBy_cons]
    by_cases h : key x < key a
    · rw [if_pos h]
      have := ih a
      simp only [List.mem_cons] at this ⊢
      tauto
    · rw [if_neg h]
      have := ih x
      simp only [List.mem_cons] at this ⊢
      tauto

theorem le_pyMaxBy {α β : Type} [LinearOrder β] (key : α → β) (x : α) (xs : List α) :
    ∀ y ∈ x :: xs, key y ≤ key (pyMaxBy key x xs) := by
  induction xs generalizing x with
  | nil =>
    intro y hy
    simp only [List.mem_singleton] at hy
    simp [hy, pyMaxBy_nil]
  | cons a as ih =>
    intro y hy
    rw [pyMaxBy_cons]
    have hx : key x ≤ key (if key x < key a then a else x) := by
      by_cases h : key x < key a
      · rw [if_pos h]; exact le_of_lt h
      · rw [if_neg h]
    have ha : key a ≤ key (if key x < key a then a else x) := by
      by_cases h : key x < key a
      · rw [if_pos h]
      · rw [if_neg h]; exact le_of_not_lt h
    have hself := ih (if key x < key a then a else x)
        (if key x < key a then a else x) (List.mem_cons_self _ _)
    simp only [List.mem_cons] at hy
    rcases hy with rfl | rfl | hy
    · exact le_trans hx hself
    · exact le_trans ha hself
    · exact ih _ y (List.mem_cons_of_mem _ hy)

theorem pyMaxBy_eq_self {α β : Type} [LinearOrder β] (key : α → β) (x : α) (xs : List α)
    (h : ∀ y ∈ xs, key y ≤ key x) : pyMaxBy key x xs = x := by
  induction xs with
  | nil => rfl
  | cons a as ih =>
    rw [pyMaxBy_cons, if_neg (not_lt.mpr (h a (List.mem_cons_self _ _)))]
    exact ih fun y hy => h y (List.mem_cons_of_mem _ hy)

theorem matchesAt_append (xs ys : List Char) : matchesAt xs (xs ++ ys) = true := by
  induction xs with
  | nil => rfl
  | cons a as ih => simp [matchesAt, ih]

theorem hasSub_append (needle rest : List Char) : hasSub needle (needle ++ rest) = true := by
  unfold hasSub
  rw [List.any_eq_true]
  exact ⟨0, List.mem_range.mpr (Nat.succ_pos _), by simpa using matchesAt_append needle rest⟩

theorem keys_addToGroups (gs : DocGroups) (doc : DocumentRecord) :
    (addToGroups gs doc).map Prod.fst =
      if doc.id ∈ gs.map Prod.fst then gs.map Prod.fst
      else gs.map Prod.fst ++ [doc.id] := by
  induction gs with
  | nil => simp [addToGroups]
  | cons g gs ih =>
    by_cases h : g.1 = doc.id
    · simp [addToGroups, h]
    · have hne : doc.id ≠ g.1 := fun hc => h hc.symm
      by_cases hmem : doc.id ∈ gs.map Prod.fst
      · simp [addToGroups, h, ih, hmem, hne]
      · simp [addToGroups, h, ih, hmem, hne]

theorem keysNodup_addToGroups (gs : DocGroups) (doc : DocumentRecord)
    (h : (gs.map Prod.fst).Nodup) : ((addToGroups gs doc).map Prod.fst).Nodup := by
  rw [keys_addToGroups]
  by_cases hmem : doc.id ∈ gs.map Prod.fst
  · rwa [if_pos hmem]
  · rw [if_neg hmem, List.nodup_append]
    refine ⟨h, List.nodup_singleton _, ?_⟩
    intro a ha hb
    rw [List.mem_singleton] at hb
    subst hb
    exact hmem ha

theorem nonempty_addToGroups (gs : DocGroups) (doc : DocumentRecord)
    (h : ∀ g ∈ gs, g.2 ≠ []) : ∀ g ∈ addToGroups gs doc, g.2 ≠ [] := by
  induction gs with
  | nil => simp [addToGroups]
  | cons g₀ gs ih =>
    intro g hg
    by_cases hk : g₀.1 = doc.id
    · rw [addToGroups, if_pos hk] at hg
      rcases List.mem_cons.mp hg with rfl | hmem
      · simp
      · exact h g (List.mem_cons_of_mem _ hmem)
    · rw [addToGroups, if_neg hk] at hg
      rcases List.mem_cons.mp hg with rfl | hmem
      · exact h g (List.mem_cons_self _ _)
      · exact ih (fun g' hg' => h g' (List.mem_cons_of_mem _ hg')) g hmem

theorem mem_addToGroups (gs : DocGroups) (doc : DocumentRecord) (g : String × List DocumentRecord)
    (d : DocumentRecord) (hg : g ∈ addToGroups gs doc) (hd : d ∈ g.2) :
    (∃ g₀ ∈ gs, d ∈ g₀.2) ∨ d = doc := by
  induction gs with
  | nil =>
    simp only [addToGroups, List.mem_singleton] at hg
    subst hg
    simp only [List.mem_singleton] at hd
    exact Or.inr hd
  | cons g₀ gs ih =>
    by_cases hk : g₀.1 = doc.id
    · rw [addToGroups, if_pos hk] at hg
      rcases List.mem_cons.mp hg with rfl | hmem
      · rcases List.mem_append.mp hd with hl | hr
        · exact Or.inl ⟨g₀, List.mem_cons_self _ _, hl⟩
        · simp only [List.mem_singleton] at hr
          exact Or.inr hr
      · exact Or.inl ⟨g, List.mem_cons_of_mem _ hmem, hd⟩
    · rw [addToGroups, if_neg hk] at hg
      rcases List.mem_cons.mp hg with rfl | hmem
      · exact Or.inl ⟨g, List.mem_cons_self _ _, hd⟩
      · rcases ih hmem with ⟨g₁, hg₁, hd₁⟩ | heq
        · exact Or.inl ⟨g₁, List.mem_cons_of_mem _ hg₁, hd₁⟩
        · exact Or.inr heq

theorem ids_addToGroups (gs : DocGroups) (doc : DocumentRecord)
    (h : ∀ g ∈ gs, ∀ d ∈ g.2, d.id = g.1) :
    ∀ g ∈ addToGroups gs doc, ∀ d ∈ g.2, d.id = g.1 := by
  induction gs with
  | nil =>
    intro g hg d hd
    simp only [addToGroups, List.mem_singleton] at hg
    subst hg
    simp only [List.mem_singleton] at hd
    simp [hd]
  | cons g₀ gs ih =>
    intro g hg d hd
    by_cases hk : g₀.1 = doc.id
    · rw [addToGroups, if_pos hk] at hg
      rcases List.mem_cons.mp hg with rfl | hmem
      · rcases List.mem_append.mp hd with hl | hr
        · exact h g₀ (List.mem_cons_self _ _) d hl
        · simp only [List.mem_singleton] at hr
          simp [hr, hk]
      · exact h g (List.mem_cons_of_mem _ hmem) d hd
    · rw [addToGroups, if_neg hk] at hg
      rcases List.mem_cons.mp hg with rfl | hmem
      · exact h g (List.mem_cons_self _ _) d hd
      · exact ih (fun g' hg' => h g' (List.mem_cons_of_mem _ hg')) g hmem d hd

theorem self_addToGroups (gs : DocGroups) (doc : DocumentRecord) :
    ∃ g ∈ addToGroups gs doc, g.1 = doc.id ∧ doc ∈ g.2 := by
  induction gs with
  | nil => exact ⟨(doc.id, [doc]), by simp [addToGroups]⟩
  | cons g₀ gs ih =>
    by_cases hk : g₀.1 = doc.id
    · exact ⟨(g₀.1, g₀.2 ++ [doc]), by simp [addToGroups, hk]⟩
    · rcases ih with ⟨g, hg, hkey, hmem⟩
      exact ⟨g, by rw [addToGroups, if_neg hk]; exact List.mem_cons_of_mem _ hg, hkey, hmem⟩

theorem keeps_addToGroups (gs : DocGroups) (doc : DocumentRecord)
    (g : String × List DocumentRecord) (hg : g ∈ gs) :
    ∃ g' ∈ addToGroups gs doc, g'.1 = g.1 ∧ ∀ d ∈ g.2, d ∈ g'.2 := by
  induction gs with
  | nil => cases hg
  | cons g₀ gs ih =>
    by_cases hk : g₀.1 = doc.id
    · rcases List.mem_cons.mp hg with rfl | hmem
      · exact ⟨(g.1, g.2 ++ [doc]), by simp [addToGroups, hk],
          rfl, fun d hd => List.mem_append_left _ hd⟩
      · exact ⟨g, by rw [addToGroups, if_pos hk]; exact List.mem_cons_of_mem _ hmem,
          rfl, fun d hd => hd⟩
    · rcases List.mem_cons.mp hg with rfl | hmem
      · exact ⟨g, by rw [addToGroups, if_neg hk]; exact List.mem_cons_self _ _,
          rfl, fun d hd => hd⟩
      · rcases ih hmem with ⟨g', hg', hkey, hsub⟩
        exact ⟨g', by rw [addToGroups, if_neg hk]; exact List.mem_cons_of_mem _ hg',
          hkey, hsub⟩

theorem groupsWF_addToGroups (docs : List DocumentRecord) (gs : DocGroups)
    (doc : DocumentRecord) (h : GroupsWF docs gs) :
    GroupsWF (docs ++ [doc]) (addToGroups gs doc) := by
  obtain ⟨hnd, hne, hmem, hcomp⟩ := h
  refine ⟨keysNodup_addToGroups gs doc hnd, nonempty_addToGroups gs doc hne, ?_, ?_⟩
  · intro g hg d hd
    refine ⟨ids_addToGroups gs doc (fun g' hg' d' hd' => (hmem g' hg' d' hd').1) g hg d hd, ?_⟩
    rcases mem_addToGroups gs doc g d hg hd with ⟨g₀, hg₀, hd₀⟩ | rfl
    · exact List.mem_append_left _ (hmem g₀ hg₀ d hd₀).2
    · exact List.mem_append_right _ (List.mem_singleton_self _)
  · intro d hd
    rcases List.mem_append.mp hd with hl | hr
    · rcases hcomp d hl with ⟨g, hg, hkey, hdg⟩
      rcases keeps_addToGroups gs doc g hg with ⟨g', hg', hkey', hsub⟩
      exact ⟨g', hg', hkey'.trans hkey, hsub d hdg⟩
    · simp only [List.mem_singleton] at hr
      subst hr
      rcases self_addToGroups gs d with ⟨g, hg, hkey, hdg⟩
      exact ⟨g, hg, hkey, hdg⟩

theorem groupById_wf (docs : List DocumentRecord) : GroupsWF docs (groupById docs) := by
  suffices h : ∀ (ds : List DocumentRecord) (pre : List DocumentRecord) (gs : DocGroups),
      GroupsWF pre gs → GroupsWF (pre ++ ds) (ds.foldl addToGroups gs) by
    have := h docs [] [] ⟨List.nodup_nil, by simp, by simp, by simp⟩
    simpa [groupById] using this
  intro ds
  induction ds with
  | nil => intro pre gs h; simpa using h
  | cons d ds ih =>
    intro pre gs h
    have := ih (pre ++ [d]) (addToGroups gs d) (groupsWF_addToGroups pre gs d h)
    simpa [List.append_assoc] using this

theorem ids_filterMap_bestOf (gs : DocGroups) (hne : ∀ g ∈ gs, g.2 ≠ [])
    (hid : ∀ g ∈ gs, ∀ d ∈ g.2, d.id = g.1) :
    ((gs.filterMap fun g => bestOf g.2).map fun d => d.id) = gs.map Prod.fst := by
  induction gs with
  | nil => rfl
  | cons g gs ih =>
    rcases g with ⟨k, l⟩
    cases l with
    | nil => exact absurd rfl (hne (k, []) (List.mem_cons_self _ _))
    | cons d ds =>
      have hbest : (pyMaxBy (fun x => x.score) d ds).id = k := by
        have hmem := pyMaxBy_mem (fun x => x.score) d ds
        exact hid (k, d :: ds) (List.mem_cons_self _ _) _ hmem
      rw [show (List.filterMap (fun g => bestOf g.2) ((k, d :: ds) :: gs)) =
            pyMaxBy (fun x => x.score) d ds :: List.filterMap (fun g => bestOf g.2) gs
            from List.filterMap_cons_some rfl,
          List.map_cons, hbest, List.map_cons,
          ih (fun g' hg' => hne g' (List.mem_cons_of_mem _ hg'))
            (fun g' hg' => hid g' (List.mem_cons_of_mem _ hg'))]

theorem deduplicate_ids (docs : List DocumentRecord) :
    ((deduplicate docs).map fun d => d.id) = (groupById docs).map Prod.fst := by
  obtain ⟨_, hne, hmem, _⟩ := groupById_wf docs
  exact ids_filterMap_bestOf _ hne fun g hg d hd => (hmem g hg d hd).1

theorem deduplicate_ids_nodup (docs : List DocumentRecord) :
    ((deduplicate docs).map fun d => d.id).Nodup := by
  rw [deduplicate_ids]
  exact (groupById_wf docs).1

theorem addToGroups_newKey (gs : DocGroups) (doc : DocumentRecord)
    (h : doc.id ∉ gs.map Prod.fst) : addToGroups gs doc = gs ++ [(doc.id, [doc])] := by
  induction gs with
  | nil => rfl
  | cons g gs ih =>
    have hk : g.1 ≠ doc.id := by
      intro he
      exact h (by simp [← he])
    rw [addToGroups, if_neg hk, ih fun hm => h (List.mem_cons_of_mem _ hm)]
    rfl

theorem groupById_of_nodup (docs : List DocumentRecord)
    (h : (docs.map fun d => d.id).Nodup) :
    groupById docs = docs.map fun d => (d.id, [d]) := by
  suffices hgen : ∀ (ds : List DocumentRecord) (gs : DocGroups),
      (ds.map fun d => d.id).Nodup → (∀ d ∈ ds, d.id ∉ gs.map Prod.fst) →
      ds.foldl addToGroups gs = gs ++ ds.map fun d => (d.id, [d]) by
    simpa [groupById] using hgen docs [] h (by simp)
  intro ds
  induction ds with
  | nil => intro gs _ _; simp
  | cons d ds ih =>
    intro gs hnd hfresh
    have hstep : addToGroups gs d = gs ++ [(d.id, [d])] :=
      addToGroups_newKey gs d (hfresh d (List.mem_cons_self _ _))
    have hnd' : (ds.map fun d => d.id).Nodup := (List.nodup_cons.mp hnd).2
    have hhead : d.id ∉ ds.map fun d => d.id := (List.nodup_cons.mp hnd).1
    have hfresh' : ∀ e ∈ ds, e.id ∉ (gs ++ [(d.id, [d])]).map Prod.fst := by
      intro e he hmem
      rw [List.map_append, List.mem_append] at hmem
      rcases hmem with hl | hr
      · exact hfresh e (List.mem_cons_of_mem _ he) hl
      · simp only [List.map_cons, List.map_nil, List.mem_singleton] at hr
        exact hhead (hr ▸ List.mem_map_of_mem (fun d => d.id) he)
    calc (d :: ds).foldl addToGroups gs
        = ds.foldl addToGroups (gs ++ [(d.id, [d])]) := by rw [List.foldl_cons, hstep]
      _ = (gs ++ [(d.id, [d])]) ++ ds.map fun d => (d.id, [d]) := ih _ hnd' hfresh'
      _ = gs ++ (d :: ds).map fun d => (d.id, [d]) := by simp

theorem deduplicate_of_nodup (docs : List DocumentRecord)
    (h : (docs.map fun d => d.id).Nodup) : deduplicate docs = docs := by
  rw [deduplicate, groupById_of_nodup docs h]
  clear h
  induction docs with
  | nil => rfl
  | cons d ds ih =>
    rw [List.map_cons,
      show (List.filterMap (fun g => bestOf g.2)
          ((d.id, [d]) :: List.map (fun e => (e.id, [e])) ds)) =
        d :: List.filterMap (fun g => bestOf g.2) (List.map (fun e => (e.id, [e])) ds)
        from List.filterMap_cons_some rfl, ih]

theorem classifyChar_devanagari (c : Char) (h1 : 0x0900 ≤ c.toNat) (h2 : c.toNat ≤ 0x097F) :
    classifyChar c = some Script.devanagari := by
  simp [classifyChar, h1, h2]

theorem filterMap_classify_const (l : List Char)
    (h : ∀ c ∈ l, classifyChar c = some Script.devanagari) :
    l.filterMap classifyChar = l.map fun _ => Script.devanagari := by
  induction l with
  | nil => rfl
  | cons a t ih =>
    rw [List.map_cons, List.filterMap_cons_some (h a (List.mem_cons_self _ _)),
      ih fun c hc => h c (List.mem_cons_of_mem _ hc)]

theorem count_map_const_self (l : List Char) :
    (l.map fun _ => Script.devanagari).count Script.devanagari = l.length := by
  rw [List.count_eq_length.mpr]
  · exact List.length_map l _
  · intro b hb
    rcases List.mem_map.mp hb with ⟨c, _, hc⟩
    exact hc

theorem count_map_const_ne (s : Script) (hs : s ≠ Script.devanagari) (l : List Char) :
    (l.map fun _ => Script.devanagari).count s = 0 := by
  refine List.count_eq_zero.mpr fun hmem => hs ?_
  rcases List.mem_map.mp hmem with ⟨c, _, hc⟩
  exact hc ▸ rfl

theorem sum_counts (l : List Script) :
    ((scriptOrder.map fun s => (s, l.count s)).map fun p => p.2).sum = l.length := by
  induction l with
  | nil => decide
  | cons c t ih =>
    simp only [scriptOrder, List.map_cons, List.map_nil, List.sum_cons,
      List.sum_nil] at ih ⊢
    cases c <;> simp [List.count_cons] <;> omega

theorem toList_append (s t : String) : (s ++ t).toList = s.toList ++ t.toList :=
  String.data_append s t

theorem pyContains_prepend (p r : String) : pyContains p (p ++ r) = true := by
  unfold pyContains
  rw [toList_append]
  exact hasSub_append p.toList r.toList

theorem isCriticalIssue_invalidCitation (c : String) :
    isCriticalIssue (mkInvalidCitationIssue c) = true := by
  have hfirst : pyContains "Invalid citation" (mkInvalidCitationIssue c) = true := by
    unfold pyContains mkInvalidCitationIssue
    have hdata : (("Invalid citation: Doc ID \x27" ++ c ++ "\x27 not in sources") :
        String).toList =
        "Invalid citation".toList ++
          (": Doc ID \x27".toList ++ c.toList ++ "\x27 not in sources".toList) := by
      simp only [toList_append]
      rw [show ("Invalid citation: Doc ID \x27" : String).toList =
        "Invalid citation".toList ++ ": Doc ID \x27".toList from rfl]
      simp [List.append_assoc]
    rw [hdata]
    exact hasSub_append _ _
  unfold isCriticalIssue
  rw [hfirst, Bool.true_or]

theorem invalidIssue_mem_automated (answer : String) (documents : List DocumentRecord)
    (c : String) (hc : c ∈ extractCitationIds answer)
    (hnc : (docIdsOf documents).contains c = false) :
    mkInvalidCitationIssue c ∈ (runAutomatedChecks answer documents).automatedIssues := by
  unfold runAutomatedChecks
  simp only []
  refine List.mem_append_left _ (List.mem_append_left _ (List.mem_append_right _ ?_))
  exact List.mem_map_of_mem _ (List.mem_filter.mpr ⟨hc, by rw [hnc]; rfl⟩)

/-- Shared core for C2: with an invalid citation present, `_combine_results`
always reports `valid=false`; it clamps confidence to at most `0.6` exactly
when the model verdict was `valid`, and otherwise returns the model verdict's
confidence untouched. -/
theorem validator_invalid_citation_core (llmResult : ValidationResult) (answer : String)
    (documents : List DocumentRecord)
    (h : ∃ c ∈ extractCitationIds answer, (docIdsOf documents).contains c = false) :
    (validatorExecute (.ok llmResult) answer documents).valid = false ∧
    (llmResult.valid = true →
      (validatorExecute (.ok llmResult) answer documents).confidence ≤ 3 / 5) ∧
    (llmResult.valid = false →
      (validatorExecute (.ok llmResult) answer documents).confidence = llmResult.confidence) := by
  obtain ⟨c, hc, hnc⟩ := h
  have hissue := invalidIssue_mem_automated answer documents c hc hnc
  have hcrit : (runAutomatedChecks answer documents).automatedIssues.filter
      isCriticalIssue ≠ [] :=
    List.ne_nil_of_mem
      (List.mem_filter.mpr ⟨hissue, isCriticalIssue_invalidCitation c⟩)
  cases hvalid : llmResult.valid with
  | false =>
    have hres : validatorExecute (.ok llmResult) answer documents =
        { valid := llmResult.valid, confidence := llmResult.confidence,
          issues := llmResult.issues ++ (runAutomatedChecks answer documents).automatedIssues } := by
      show combineResults llmResult (runAutomatedChecks answer documents) = _
      simp only [combineResults]
      rw [if_neg fun hcond => Bool.false_ne_true (hvalid ▸ hcond.2)]
    rw [hres]
    exact ⟨hvalid, fun hv => Bool.noConfusion hv, fun _ => rfl⟩
  | true =>
    have hres : validatorExecute (.ok llmResult) answer documents =
        { valid := false, confidence := min llmResult.confidence (3 / 5),
          issues := llmResult.issues ++ (runAutomatedChecks answer documents).automatedIssues } := by
      show combineResults llmResult (runAutomatedChecks answer documents) = _
      simp only [combineResults]
      rw [if_pos ⟨hcrit, hvalid⟩]
    rw [hres]
    exact ⟨rfl, fun _ => min_le_right _ _, fun hv => Bool.noConfusion hv⟩

/-! ## Claim theorems -/

/-- C3.  For every input list of document records, `_deduplicate` returns a
list with at most one record per document id, and for each id the retained
record is one of the input records with that id and carries the maximum
score among all input records sharing that id. -/
theorem retriever_fusion_spec (docs : List DocumentRecord) :
    ((deduplicate docs).map fun d => d.id).Nodup ∧
    ∀ d ∈ deduplicate docs, d ∈ docs ∧ ∀ e ∈ docs, e.id = d.id → e.score ≤ d.score := by
  obtain ⟨hnd, hne, hmem, hcomp⟩ := groupById_wf docs
  refine ⟨deduplicate_ids_nodup docs, ?_⟩
  intro d hd
  rw [deduplicate, List.mem_filterMap] at hd
  obtain ⟨g, hg, hbest⟩ := hd
  rcases hg2 : g.2 with _ | ⟨d₀, ds⟩
  · rw [hg2] at hbest
    cases hbest
  · rw [hg2] at hbest
    have hd_eq : pyMaxBy (fun x => x.score) d₀ ds = d := by
      simpa [bestOf] using hbest
    have hdmem : d ∈ g.2 := by
      rw [hg2, ← hd_eq]
      exact pyMaxBy_mem _ d₀ ds
    obtain ⟨hid, hdocs⟩ := hmem g hg d hdmem
    refine ⟨hdocs, ?_⟩
    intro e he heid
    obtain ⟨g', hg', hkey', heg'⟩ := hcomp e he
    have hgg : g' = g :=
      List.inj_on_of_nodup_map hnd hg' hg (by rw [hkey', heid, hid])
    subst hgg
    rw [hg2] at heg'
    have := le_pyMaxBy (fun x => x.score) d₀ ds e heg'
    rwa [hd_eq] at this

/-- C3 witness: the fusion specification evaluated on the concrete demo
document multiset. -/
theorem retriever_fusion_spec_witness :
    ((deduplicate [demoDocA, demoDocB, demoDocC]).map fun d => d.id).Nodup ∧
    ∀ d ∈ deduplicate [demoDocA, demoDocB, demoDocC],
      d ∈ [demoDocA, demoDocB, demoDocC] ∧
      ∀ e ∈ [demoDocA, demoDocB, demoDocC], e.id = d.id → e.score ≤ d.score :=
  retriever_fusion_spec [demoDocA, demoDocB, demoDocC]

/-- C9.  `_deduplicate` is the identity on every list that is already fused,
i.e. has at most one record per document id: the same records come back in
the same order. -/
theorem retriever_fusion_idempotent (l : List DocumentRecord)
    (h : (l.map fun d => d.id).Nodup) : deduplicate l = l :=
  deduplicate_of_nodup l h

/-- C9 witness: refusing an already-fused concrete list returns it
unchanged. -/
theorem retriever_fusion_idempotent_witness :
    deduplicate (deduplicate [demoDocA, demoDocB, demoDocC]) =
      deduplicate [demoDocA, demoDocB, demoDocC] :=
  retriever_fusion_idempotent _ (deduplicate_ids_nodup [demoDocA, demoDocB, demoDocC])

/-- C1 (the claim fails on the code; this theorem documents the divergence).
On the demo input, document `d1` is returned by both search queries
(`countId` over the tagged, pre-fusion list is 2), rerank runs (2 unique
documents, `top_k = 1`), yet the returned adjusted score is the plain
`min(1.0, 0.5)` = `0.5`: the per-id count `_rerank` uses is taken over the
already-deduplicated list, so the claimed multi-query bonus
`min(1.0, 0.5 + 0.05 × (2 − 1)) = 0.55` is never applied. -/
theorem retriever_rerank_bonus_dead :
    countId (tagAll demoPerQuery) "d1" = 2 ∧
    (retrieverFinal demoPerQuery 1 true).map (fun d => (d.id, d.rerankScore)) =
      [("d1", some (1 / 2))] ∧
    (1 / 2 : ℚ) ≠ min 1 (1 / 2 + ((2 : ℚ) - 1) * (5 / 100)) := by
  refine ⟨?_, ?_, ?_⟩
  · norm_num +decide [countId, tagAll, demoPerQuery, demoDocA, demoDocB, demoDocC,
      List.range, List.range.loop, List.zip, List.zipWith, List.countP_cons, List.countP_nil]
  · norm_num +decide [retrieverFinal, tagAll, deduplicate, groupById, addToGroups, bestOf,
      pyMaxBy, rerank, countId, pySortDescBy, rerankKey, List.insertionSort,
      List.orderedInsert, demoPerQuery, demoDocA, demoDocB, demoDocC, List.range,
      List.range.loop, List.zip, List.zipWith, min_def, List.filterMap_cons,
      List.countP_cons, List.countP_nil]
  · rw [min_def]
    norm_num

/-- C2 as amended.  An answer containing a citation whose id is not among
the provided documents always yields `valid=false`; confidence is clamped to
at most `0.6` only when the model verdict was `valid=true` — when the model
verdict is already `valid=false` its confidence is returned unchanged. -/
theorem validator_invalid_citation_amended (llmResult : ValidationResult) (answer : String)
    (documents : List DocumentRecord)
    (h : ∃ c ∈ extractCitationIds answer, (docIdsOf documents).contains c = false) :
    (validatorExecute (.ok llmResult) answer documents).valid = false ∧
    (llmResult.valid = true →
      (validatorExecute (.ok llmResult) answer documents).confidence ≤ 3 / 5) ∧
    (llmResult.valid = false →
      (validatorExecute (.ok llmResult) answer documents).confidence = llmResult.confidence) :=
  validator_invalid_citation_core llmResult answer documents h

/-- C2 witness: with the invalid citation `doc999` and a model verdict of
`valid=true`, execute returns `valid=false` with confidence clamped. -/
theorem validator_invalid_citation_amended_witness :
    (validatorExecute (.ok cexLlmValid) cexAnswer cexDocs).valid = false ∧
    (cexLlmValid.valid = true →
      (validatorExecute (.ok cexLlmValid) cexAnswer cexDocs).confidence ≤ 3 / 5) ∧
    (cexLlmValid.valid = false →
      (validatorExecute (.ok cexLlmValid) cexAnswer cexDocs).confidence =
        cexLlmValid.confidence) :=
  validator_invalid_citation_amended cexLlmValid cexAnswer cexDocs (by decide)

/-- C2 counterexample to the claim as stated.  The answer cites the
nonexistent id `doc999`, yet when the model verdict is `valid=false` with
confidence `0.9`, `ValidatorAgent.execute` returns confidence `0.9 > 0.6`:
the clamp at `0.6` only fires when the model verdict was `valid=true`
(`_combine_results` line 292 tests `critical_issues and combined["valid"]`). -/
theorem validator_clamp_counterexample :
    (∃ c ∈ extractCitationIds cexAnswer, (docIdsOf cexDocs).contains c = false) ∧
    (validatorExecute (.ok cexLlmInvalid) cexAnswer cexDocs).valid = false ∧
    (validatorExecute (.ok cexLlmInvalid) cexAnswer cexDocs).confidence = 9 / 10 ∧
    ¬ ((validatorExecute (.ok cexLlmInvalid) cexAnswer cexDocs).confidence ≤ 3 / 5) := by
  have hbad : ∃ c ∈ extractCitationIds cexAnswer, (docIdsOf cexDocs).contains c = false := by
    decide
  obtain ⟨hv, _, hc⟩ := validator_invalid_citation_core cexLlmInvalid cexAnswer cexDocs hbad
  have hconf : (validatorExecute (.ok cexLlmInvalid) cexAnswer cexDocs).confidence = 9 / 10 :=
    hc rfl
  exact ⟨hbad, hv, hconf, by rw [hconf]; norm_num⟩

/-- C4.  For every analysis text, citation list and non-empty document list,
the analyzer's confidence equals the claimed closed formula (clamp to [0,1]
of base 0.5 + citation bonus + mean-relevance bonus − 0.1 per distinct
hedging phrase found case-insensitively, each counted at most once), and is
in particular always within `[0, 1]`. -/
theorem analyzer_confidence_spec (analysis : String) (citations : List String)
    (documents : List DocumentRecord) (h : documents ≠ []) :
    estimateConfidence analysis citations documents =
      confidenceClaimFormula analysis citations.length documents ∧
    0 ≤ estimateConfidence analysis citations documents ∧
    estimateConfidence analysis citations documents ≤ 1 := by
  refine ⟨?_, ?_, ?_⟩
  · simp only [estimateConfidence, confidenceClaimFormula, if_pos h]
    rcases Nat.eq_zero_or_pos citations.length with hz | hp
    · rw [if_neg (by rw [hz]; exact lt_irrefl 0), hz]
      have hmin : min ((3 : ℚ) / 10) ((0 : Nat) * (1 / 10)) = 0 := by
        rw [min_eq_right] <;> norm_num
      rw [hmin]
      ring_nf
    · rw [if_pos hp]
  · exact le_max_left 0 _
  · exact max_le (by norm_num) (min_le_left 1 _)

/-- C4 witness: the confidence formula evaluated at one citation and one
document with score `0.5` (the value is `0.5 + 0.1 + 0.1 = 0.7`, inside
`[0,1]`). -/
theorem analyzer_confidence_spec_witness :
    estimateConfidence "The capital is New Delhi [Doc ID: d1]." ["d1"] [demoDocA] =
      confidenceClaimFormula "The capital is New Delhi [Doc ID: d1]." 1 [demoDocA] ∧
    0 ≤ estimateConfidence "The capital is New Delhi [Doc ID: d1]." ["d1"] [demoDocA] ∧
    estimateConfidence "The capital is New Delhi [Doc ID: d1]." ["d1"] [demoDocA] ≤ 1 :=
  analyzer_confidence_spec "The capital is New Delhi [Doc ID: d1]." ["d1"] [demoDocA]
    (by decide)

/-- C5.  Whenever an exception escapes the model call, parsing or combination
steps of `ValidatorAgent.execute`, the error is not propagated: the result is
exactly `valid=true`, `confidence=0.5`, with the single issue
`"Validation error: <message>"`. -/
theorem validator_fails_open (msg answer : String) (documents : List DocumentRecord) :
    validatorExecute (.error msg) answer documents =
      { valid := true, confidence := 1 / 2, issues := ["Validation error: " ++ msg] } :=
  rfl

/-- C5 witness: the fail-open verdict on a concrete failure. -/
theorem validator_fails_open_witness :
    validatorExecute (.error "timeout") "Some answer." [demoDocA] =
      { valid := true, confidence := 1 / 2, issues := ["Validation error: timeout"] } :=
  validator_fails_open "timeout" "Some answer." [demoDocA]

/-- C7.  The synthesizer's structure tag is a pure function of the answer's
word count and the query category, decided in the order the claim states:
word count < 30 → "direct", else COMPARISON → "comparison", else
SUMMARIZATION → "summary", else word count > 100 → "detailed", else
"standard" — with no dependence on the generation call. -/
theorem synthesizer_structure_spec (answer queryType : String) :
    determineStructure answer queryType =
      structureClaimFormula (pySplitWS answer).length queryType :=
  rfl

/-- C7 witness: a 3-word answer is tagged "direct" regardless of category. -/
theorem synthesizer_structure_spec_witness :
    determineStructure "New Delhi wins" "COMPARISON" =
      structureClaimFormula (pySplitWS "New Delhi wins").length "COMPARISON" :=
  synthesizer_structure_spec "New Delhi wins" "COMPARISON"

/-- C8.  `AnalyzerAgent.execute` on an empty document list returns the fixed
no-documents text, no sources, confidence `0.0` and citation count `0`, and
makes no text-generation call (call count 0, result independent of the
oracle). -/
theorem analyzer_empty_documents
    (llm : String × List DocumentRecord × String × String → String)
    (query language queryType : String) :
    analyzerExecute llm query [] language queryType =
      ({ analysis := "No documents provided for analysis.", sourcesUsed := [],
         confidence := 0, citationsCount := 0 }, 0) :=
  rfl

/-- C8 witness: the empty-document short-circuit on concrete arguments. -/
theorem analyzer_empty_documents_witness :
    analyzerExecute (fun _ => "ignored") "What is the capital of India?" [] "en" "SIMPLE_QA" =
      ({ analysis := "No documents provided for analysis.", sourcesUsed := [],
         confidence := 0, citationsCount := 0 }, 0) :=
  analyzer_empty_documents (fun _ => "ignored") "What is the capital of India?" "en" "SIMPLE_QA"

/-- C6.  The script-frequency fallback of `LanguageDetector`:
(1) a non-empty all-Devanagari string yields `("hi", 1.0)`;
(2) `detect` on an empty or whitespace-only string yields `(fallback, 0.0)`
for every statistical-classifier outcome;
(3) a string with no character in any of the ten script buckets yields
`(fallback, 0.0)` from the fallback. -/
theorem language_detector_fallback_spec :
    (∀ text fallback : String, text.toList ≠ [] →
      (∀ c ∈ text.toList, 0x0900 ≤ c.toNat ∧ c.toNat ≤ 0x097F) →
      detectByScript text fallback = ("hi", 1)) ∧
    (∀ (outcome : Except String (List (String × ℚ))) (text fallback : String),
      text.toList.all (fun c => c.isWhitespace) = true →
      detect outcome text fallback = (fallback, 0)) ∧
    (∀ text fallback : String, text.toList.filterMap classifyChar = [] →
      detectByScript text fallback = (fallback, 0)) := by
  refine ⟨?_, ?_, ?_⟩
  · intro text fallback hne hdev
    have hcl : text.toList.filterMap classifyChar =
        text.toList.map fun _ => Script.devanagari :=
      filterMap_classify_const _ fun c hc =>
        classifyChar_devanagari c (hdev c hc).1 (hdev c hc).2
    have hlen : text.toList.length ≠ 0 := fun hz => hne (List.length_eq_zero.mp hz)
    have htot : ((scriptOrder.map fun s =>
        (s, (text.toList.map fun _ => Script.devanagari).count s)).map fun p => p.2).sum =
        text.toList.length := by
      rw [sum_counts]
      exact List.length_map _ _
    simp only [detectByScript, hcl, htot]
    rw [if_neg hlen]
    simp only [scriptOrder, List.map_cons, List.map_nil, count_map_const_self,
      count_map_const_ne Script.bengali (by decide),
      count_map_const_ne Script.tamil (by decide),
      count_map_const_ne Script.telugu (by decide),
      count_map_const_ne Script.gujarati (by decide),
      count_map_const_ne Script.kannada (by decide),
      count_map_const_ne Script.malayalam (by decide),
      count_map_const_ne Script.gurmukhi (by decide),
      count_map_const_ne Script.latin (by decide),
      count_map_const_ne Script.arabic (by decide)]
    rw [pyMaxBy_eq_self (fun q => q.2) (Script.devanagari, text.toList.length) _
      (by intro y hy; fin_cases hy <;> simp)]
    have hdiv : ((text.length : ℚ)) / ((text.length : ℚ)) = 1 :=
      div_self (Nat.cast_ne_zero.mpr hlen)
    simp [scriptToLang, hdiv]
  · intro outcome text fallback h
    unfold detect
    rw [if_pos h]
  · intro text fallback h
    have hdata : List.filterMap classifyChar text.data = [] := h
    simp [detectByScript, hdata, scriptOrder]

/-- C6 witness: the three fallback behaviours at concrete inputs — a pure
Devanagari word, a whitespace-only string, and a string with no classifiable
character. -/
theorem language_detector_fallback_witness :
    detectByScript "भारत" "en" = ("hi", 1) ∧
    detect (.ok [("en", 1)]) "  " "en" = ("en", 0) ∧
    detectByScript "123 ?!" "fr" = ("fr", 0) :=
  ⟨language_detector_fallback_spec.1 "भारत" "en" (by decide) (by decide),
    language_detector_fallback_spec.2.1 (.ok [("en", 1)]) "  " "en" (by decide),
    language_detector_fallback_spec.2.2 "123 ?!" "fr" (by decide)⟩

/-- C10.  `process_query` initializes the pipeline filters to
`{"user_id": user_id}` when the argument is omitted (`None`) or empty, and
passes any non-empty mapping through unchanged (even without a `user_id`
key); `_retrieve_node` forwards the state's filters to retrieval as-is. -/
theorem orchestrator_default_filters (query userId : String)
    (f : List (String × String)) (h : f ≠ []) :
    (initialState query userId none).filters = [("user_id", userId)] ∧
    (initialState query userId (some [])).filters = [("user_id", userId)] ∧
    (initialState query userId (some f)).filters = f ∧
    retrieveNodeFilters (initialState query userId (some f)) = f ∧
    retrieveNodeFilters (initialState query userId none) = [("user_id", userId)] := by
  simp [initialState, retrieveNodeFilters, h]

/-- C10 witness: the filter defaulting evaluated at concrete arguments with a
non-empty filter mapping that has no `user_id` key. -/
theorem orchestrator_default_filters_witness :
    (initialState "What is AI?" "user123" none).filters = [("user_id", "user123")] ∧
    (initialState "What is AI?" "user123" (some [])).filters = [("user_id", "user123")] ∧
    (initialState "What is AI?" "user123" (some [("language", "en")])).filters =
      [("language", "en")] ∧
    retrieveNodeFilters (initialState "What is AI?" "user123" (some [("language", "en")])) =
      [("language", "en")] ∧
    retrieveNodeFilters (initialState "What is AI?" "user123" none) =
      [("user_id", "user123")] :=
  orchestrator_default_filters "What is AI?" "user123" [("language", "en")] (by decide)

end RAG
